import Mathlib

/-!
Verification of the sliding-window rate limiter of this repository
(`module_name/middlewares/rate_limiter.py`, `module_name/structs/rate_limiter.py`,
`module_name/config.py`) via a shallow embedding in Lean 4.

Conventions of the embedding:
* `datetime` values and `timedelta` durations are modelled as integers
  (e.g. microsecond ticks); `datetime` arithmetic in Python is exact, so
  `now - ts > window` is integer comparison.
* Python exceptions (`KeyError` from `seq_2[key]`, `TypeError` from hashing a
  `dict` in an `in`-test) are modelled with `Except PyErr`.
* A Python `dict` is modelled as an association list in insertion order with
  no duplicate keys; lookups walk the list.
-/

/-- Python exceptions that the matcher code can raise:
`KeyError` from `seq_2[key]` when `key` is absent, and `TypeError` from
`item not in seq_2` when `item` is a `dict` (unhashable). -/
inductive PyErr where
  | keyError
  | typeError
deriving DecidableEq, Repr

/-- A field value in a `FieldSnapshot`: either a string (ip, user-agent,
authorization header) or a string-to-string mapping (the cookie dict). -/
inductive Value where
  | s (v : String)
  | m (v : List (String × String))
deriving DecidableEq, Repr

/-- Python truthiness of a field value: `not item` is true exactly for the
empty string and the empty dict (`None` never appears in a snapshot, it is
filtered out at extraction). -/
def Value.isEmpty : Value → Bool
  | .s v => v = ""
  | .m v => v = []

/-- Python `==` on two dicts: equal key sets with equal values, insertion
order ignored. -/
def dictEqv (d1 d2 : List (String × String)) : Bool :=
  d1.all (fun p => d2.lookup p.1 = some p.2) && d2.all (fun p => d1.lookup p.1 = some p.2)

/-- Python `==` between two field values: string equality, dict equality
(order-insensitive), and `False` across types. -/
def Value.eqv : Value → Value → Bool
  | .s a, .s b => a = b
  | .m a, .m b => dictEqv a b
  | _, _ => false

/-- A `FieldSnapshot`: the Python dict mapping field-name strings
(`'ip'`, `'useragent'`, `'cookies'`, `'auth'`) to extracted values, in
insertion (configured) order. -/
abbrev Snapshot := List (String × Value)

/-- `seq[key]` / `seq.get(key)` on a snapshot dict: first binding of `key`. -/
def lookupKey (k : String) : Snapshot → Option Value
  | [] => none
  | (k', v) :: rest => if k' = k then some v else lookupKey k rest

/-- The key set of a snapshot dict, for the Python `item in seq_2` test
(membership in a dict tests the keys). -/
def keysContain (a : Snapshot) (s : String) : Bool :=
  a.any (fun p => p.1 = s)

/-- `_and(seq_1, seq_2)` of `rate_limiter.py`: `all` over
`_map_seq(seq_1, seq_2, ignore_empty=False)`, i.e. over
`item == seq_2[key] for key, item in seq_1.items()`, evaluated lazily in
order.  The middleware calls it as `_and(_fields, _item.fields)`, so `seq_1`
is the incoming snapshot and `seq_2` the stored one.  `seq_2[key]` raises
`KeyError` when `key` is absent from `seq_2`; `all` stops at the first
`False` element, so a later `KeyError` is then never raised. -/
def andMatch : Snapshot → Snapshot → Except PyErr Bool
  | [], _ => .ok true
  | (k, v) :: rest, a =>
    match lookupKey k a with
    | none => .error .keyError
    | some w => if Value.eqv v w then andMatch rest a else .ok false

/-- One element of `_map_seq(seq_1, seq_2, ignore_empty=True)` as used by
`_or`: `(not item or item not in seq_2) or item == seq_2[key]`, with Python's
left-to-right short-circuit evaluation.  `item in seq_2` hashes `item`
against `seq_2`'s keys and raises `TypeError` when `item` is a dict. -/
def orElem (k : String) (v : Value) (a : Snapshot) : Except PyErr Bool :=
  if v.isEmpty then .ok true
  else
    match v with
    | .m _ => .error .typeError
    | .s str =>
      if keysContain a str then
        match lookupKey k a with
        | none => .error .keyError
        | some w => .ok (Value.eqv (.s str) w)
      else .ok true

/-- `_or(seq_1, seq_2)` of `rate_limiter.py`: `any` over
`_map_seq(seq_1, seq_2, ignore_empty=True)`, evaluated lazily in order;
`any` stops at the first `True` element.  Called as
`_or(_fields, _item.fields)`: `seq_1` incoming, `seq_2` stored. -/
def orMatch : Snapshot → Snapshot → Except PyErr Bool
  | [], _ => .ok false
  | (k, v) :: rest, a =>
    match orElem k v a with
    | .error e => .error e
    | .ok true => .ok true
    | .ok false => orMatch rest a

/-- `MatchMethod` enum of `structs/rate_limiter.py`. -/
inductive MatchMethod where
  | and
  | or
deriving DecidableEq, Repr

/-- The match test the middleware applies to one stored record:
`_or(_fields, _item.fields)` resp. `_and(_fields, _item.fields)`, with
`b` the incoming snapshot `_fields` and `a` the stored `_item.fields`. -/
def matchFn (method : MatchMethod) (b a : Snapshot) : Except PyErr Bool :=
  match method with
  | .and => andMatch b a
  | .or => orMatch b a

/-- `RequestState` of `structs/rate_limiter.py`: the recorded fields plus a
timestamp (`datetime.utcnow()` at creation). -/
structure RequestState where
  fields : Snapshot
  timestamp : Int
deriving DecidableEq, Repr

/-- A record is expired at `now`: `_now - request_state.timestamp > _window_time`. -/
def isExpired (now window : Int) (r : RequestState) : Bool :=
  window < now - r.timestamp

/-- `_remove_olds` of `rate_limiter.py`: scan the window from the newest end
backwards; at the first (largest) index whose record satisfies
`_now - timestamp > _window_time`, keep only `rate_limit_datas[index + 1:]`;
if no record is expired the window is unchanged.  Equivalently the result is
the maximal suffix containing no expired record, i.e. the reversed
`takeWhile not-expired` of the reversed list. -/
def removeOlds (datas : List RequestState) (now window : Int) : List RequestState :=
  (datas.reverse.takeWhile (fun r => !isExpired now window r)).reverse

/-- The counting loop of `_rate_limit_middleware`: consume
`filter(lambda _item: match(_fields, _item.fields), rate_limit_datas)` in
order, counting `True` results; the first exception raised by a match
aborts the whole request. -/
def countMatches (method : MatchMethod) (fields : Snapshot) :
    List RequestState → Except PyErr Nat
  | [] => .ok 0
  | r :: rest =>
    match matchFn method fields r.fields with
    | .error e => .error e
    | .ok b =>
      match countMatches method fields rest with
      | .error e => .error e
      | .ok n => .ok (if b then n + 1 else n)

/-- One call of `_rate_limit_middleware` on an already-extracted snapshot
`fields`, at time `now`, over window state `datas`:
1. evict via `_remove_olds` (this reassignment persists even if a later step
   raises);
2. count prior matching records (may raise `KeyError`/`TypeError`, in which
   case nothing is appended and there is no admit/deny outcome — modelled as
   outcome `none`);
3. append `RequestState(fields, now)` unconditionally;
4. deny iff `count > limit` (outcome `some false`), else admit
   (outcome `some true`). -/
def step (method : MatchMethod) (limit window : Int)
    (datas : List RequestState) (fields : Snapshot) (now : Int) :
    List RequestState × Option Bool :=
  let st1 := removeOlds datas now window
  match countMatches method fields st1 with
  | .error _ => (st1, none)
  | .ok cnt => (st1 ++ [⟨fields, now⟩], some (decide ((cnt : Int) ≤ limit)))

/-- A sequence of serialized middleware calls: each element is the extracted
snapshot and the call time; returns the final window and the outcome of each
call (`some true` admit, `some false` deny, `none` exception). -/
def runSeq (method : MatchMethod) (limit window : Int) :
    List RequestState → List (Snapshot × Int) → List RequestState × List (Option Bool)
  | st, [] => (st, [])
  | st, (f, t) :: rest =>
    let p := step method limit window st f t
    let q := runSeq method limit window p.1 rest
    (q.1, p.2 :: q.2)

/-- `MatchFields` enum of `structs/rate_limiter.py`. -/
inductive MatchFields where
  | ip
  | useragent
  | cookie
  | auth
deriving DecidableEq, Repr

/-- `MatchFields.value`: the string value of each enum member. -/
def MatchFields.value : MatchFields → String
  | .ip => "ip"
  | .useragent => "useragent"
  | .cookie => "cookies"
  | .auth => "auth"

/-- The request data the extractors of `_field_mapping` read:
`request.client.host`, the `User-Agent` header, the cookie dict, and the
`Authorization` header.  Headers may be absent (`headers.get` yields `None`);
`request.cookies` is always a dict (possibly empty). -/
structure RequestCtx where
  host : String
  useragent : Option String
  cookies : List (String × String)
  auth : Option String

/-- `_field_mapping[field](request)`: the per-field extraction rule; `none`
models Python `None`. -/
def extractField (f : MatchFields) (req : RequestCtx) : Option Value :=
  match f with
  | .ip => some (.s req.host)
  | .useragent => req.useragent.map .s
  | .cookie => some (.m req.cookies)
  | .auth => req.auth.map .s

/-- The `_fields` dict of `_rate_limit_middleware`: the dict comprehension
`{field.value: rule(request) for field in match_fields}` followed by
filtering out `None` values, preserving configured order. -/
def extractFields (fields : List MatchFields) (req : RequestCtx) : Snapshot :=
  fields.filterMap (fun f => (extractField f req).map (fun v => (f.value, v)))

/-- The `match_fields` config value: Python accepts a single `MatchFields`
or a list of them (or `None`, absent). -/
inductive FieldsSpec where
  | single (f : MatchFields)
  | list (l : List MatchFields)
deriving DecidableEq, Repr

/-- `RateLimitConfig` of `config.py` (the pydantic model): `None` defaults
modelled as `Option.none`.  `status_code` defaults to 429. -/
structure RateLimitConfig where
  enable : Bool
  window_time : Option Int
  limit : Option Int
  match_fields : Option FieldsSpec
  match_method : Option MatchMethod
  status_code : Int
  message : Option String
deriving DecidableEq, Repr

/-- `RateLimitConfig.verify_fields` (the `model_validator`): when `enable`
is false, accept as-is; otherwise assert that `window_time`, `limit`,
`match_fields` and `match_method` are all non-`None` (in that order, the
first failing assertion aborting validation with its message), then wrap a
single `match_fields` into a list and default `message` from
`HTTPStatus(status_code).phrase`.  The phrase table is passed in as
`phrase`; `phrase c = none` models `HTTPStatus(c)` raising `ValueError`. -/
def verify_fields (phrase : Int → Option String) (c : RateLimitConfig) :
    Except String RateLimitConfig :=
  if c.enable = false then .ok c
  else if c.window_time = none then
    .error "`window_time` must be defined when enable is True"
  else if c.limit = none then
    .error "`limit` must be defined when enable is True"
  else if c.match_fields = none then
    .error "`match_fields` must be defined when enable is True"
  else if c.match_method = none then
    .error "`match_method` must be defined when enable is True"
  else
    let c1 := { c with match_fields :=
      match c.match_fields with
      | some (.single f) => some (.list [f])
      | mf => mf }
    match c1.message with
    | some _ => .ok c1
    | none =>
      match phrase c1.status_code with
      | some p => .ok { c1 with message := some p }
      | none => .error "ValueError"

/-- Modelled from the spec (§4.2), for comparison with the code's `_and`:
"AND: true iff every key present in A is also present in B with an equal
value (a key missing or differing in B fails the match)", where A is the
stored snapshot and B the incoming one. -/
def specAnd (a b : Snapshot) : Bool :=
  a.all (fun p => match lookupKey p.1 b with
    | some w => Value.eqv p.2 w
    | none => false)

/-- Modelled from the spec (§4.2), for comparison with the code's `_or`:
"OR: true iff at least one key in A is present, non-empty, and equal in B",
where A is the stored snapshot and B the incoming one. -/
def specOr (a b : Snapshot) : Bool :=
  a.any (fun p => match lookupKey p.1 b with
    | some w => !p.2.isEmpty && Value.eqv p.2 w
    | none => false)

/-! ## Helper lemmas -/

/-- A `takeWhile` whose predicate is downward closed along the pairwise
relation of the list equals `filter`. -/
theorem takeWhile_eq_filter_of_pairwise {α : Type} (p : α → Bool) :
    ∀ (l : List α), l.Pairwise (fun a b => p b = true → p a = true) →
      l.takeWhile p = l.filter p := by
  intro l
  induction l with
  | nil => intro _; rfl
  | cons a l ih =>
    intro hpw
    rw [List.pairwise_cons] at hpw
    by_cases hpa : p a = true
    · rw [List.takeWhile_cons_of_pos hpa, List.filter_cons_of_pos hpa, ih hpw.2]
    · rw [List.takeWhile_cons_of_neg hpa, List.filter_cons_of_neg hpa]
      symm
      rw [List.filter_eq_nil_iff]
      intro b hb hpb
      exact hpa (hpw.1 b hb hpb)

/-- Eviction keeps a sublist (in fact a suffix) of the window. -/
theorem removeOlds_sublist (datas : List RequestState) (now window : Int) :
    (removeOlds datas now window).Sublist datas := by
  have h := List.takeWhile_sublist (l := datas.reverse)
    (p := fun r => !isExpired now window r)
  have h2 := h.reverse
  rw [List.reverse_reverse] at h2
  exact h2

/-- Under non-decreasing timestamps, the backward-scanning eviction
`_remove_olds` behaves exactly like a filter keeping the non-expired
records. -/
theorem removeOlds_eq_filter_aux (datas : List RequestState) (now window : Int)
    (hsorted : datas.Pairwise (fun a b => a.timestamp ≤ b.timestamp)) :
    removeOlds datas now window
      = datas.filter (fun r => !isExpired now window r) := by
  unfold removeOlds
  rw [takeWhile_eq_filter_of_pairwise]
  · rw [List.filter_reverse, List.reverse_reverse]
  · rw [List.pairwise_reverse]
    apply hsorted.imp
    intro a b hab
    simp only [isExpired, Bool.not_eq_true', decide_eq_false_iff_not, not_lt]
    intro hb
    omega

/-- Membership lookup in a duplicate-free association list. -/
theorem lookup_eq_of_mem_nodup {β : Type} [DecidableEq β] :
    ∀ (l : List (String × β)) (k : String) (v : β),
      (l.map Prod.fst).Nodup → (k, v) ∈ l → l.lookup k = some v := by
  intro l
  induction l with
  | nil => intro k v _ hm; cases hm
  | cons p l ih =>
    intro k v hnd hm
    rw [List.map_cons, List.nodup_cons] at hnd
    rcases List.mem_cons.mp hm with h | h
    · cases h
      simp [List.lookup]
    · have hne : p.1 ≠ k := by
        intro he
        exact hnd.1 (he ▸ (List.mem_map.mpr ⟨(k, v), h, rfl⟩))
      have hbeq : (k == p.1) = false := beq_eq_false_iff_ne.mpr (Ne.symm hne)
      simp only [List.lookup, hbeq]
      exact ih k v hnd.2 h

/-- Same fact for the embedding's `lookupKey`. -/
theorem lookupKey_eq_of_mem_nodup :
    ∀ (l : Snapshot) (k : String) (v : Value),
      (l.map Prod.fst).Nodup → (k, v) ∈ l → lookupKey k l = some v := by
  intro l
  induction l with
  | nil => intro k v _ hm; cases hm
  | cons p l ih =>
    intro k v hnd hm
    rw [List.map_cons, List.nodup_cons] at hnd
    rcases List.mem_cons.mp hm with h | h
    · cases h
      simp [lookupKey]
    · have hne : p.1 ≠ k := by
        intro he
        exact hnd.1 (he ▸ (List.mem_map.mpr ⟨(k, v), h, rfl⟩))
      simp only [lookupKey]
      rw [if_neg hne]
      exact ih k v hnd.2 h

/-- Characterization of a successful `True` result of `_and`: every key of
the incoming snapshot is present in the stored one with a `==`-equal value.
(The result is order-independent; short-circuiting only affects *which*
non-`ok true` answer is produced.) -/
theorem andMatch_ok_true_iff (b a : Snapshot) :
    andMatch b a = .ok true ↔
      ∀ p ∈ b, ∃ w, lookupKey p.1 a = some w ∧ Value.eqv p.2 w = true := by
  induction b with
  | nil => simp [andMatch]
  | cons p rest ih =>
    obtain ⟨k, v⟩ := p
    simp only [andMatch]
    cases hl : lookupKey k a with
    | none =>
      constructor
      · intro h; exact absurd h (by simp)
      · intro h
        obtain ⟨w, hw, _⟩ := h (k, v) (List.mem_cons_self _ _)
        rw [hl] at hw
        cases hw
    | some w =>
      dsimp only
      by_cases he : Value.eqv v w = true
      · rw [if_pos he, ih]
        constructor
        · intro h q hq
          rcases List.mem_cons.mp hq with rfl | hq'
          · exact ⟨w, hl, he⟩
          · exact h q hq'
        · intro h q hq
          exact h q (List.mem_cons_of_mem _ hq)
      · rw [if_neg he]
        constructor
        · intro h
          exact absurd (Except.ok.inj h) (by simp)
        · intro h
          obtain ⟨w', hw', he'⟩ := h (k, v) (List.mem_cons_self _ _)
          rw [hl] at hw'
          injection hw' with hww
          subst hww
          exact absurd he' he

/-- Characterization of a successful result of `_or`: when no exception is
raised, the answer is `True` iff some element of the incoming snapshot
evaluates to `True` against the stored one. -/
theorem orMatch_ok_iff (b a : Snapshot) (r : Bool)
    (h : orMatch b a = .ok r) :
    r = true ↔ ∃ p ∈ b, orElem p.1 p.2 a = .ok true := by
  induction b with
  | nil =>
    simp only [orMatch] at h
    injection h with h'
    subst h'
    simp
  | cons p rest ih =>
    obtain ⟨k, v⟩ := p
    simp only [orMatch] at h
    split at h
    · exact absurd h (by simp)
    · next heq =>
      injection h with h'
      subst h'
      simp only [true_iff]
      exact ⟨(k, v), List.mem_cons_self _ _, heq⟩
    · next heq =>
      have hrest := ih h
      constructor
      · intro hr
        obtain ⟨q, hq, hqe⟩ := hrest.mp hr
        exact ⟨q, List.mem_cons_of_mem _ hq, hqe⟩
      · rintro ⟨q, hq, hqe⟩
        rcases List.mem_cons.mp hq with rfl | hq'
        · rw [heq] at hqe
          exact absurd (Except.ok.inj hqe) (by simp)
        · exact hrest.mpr ⟨q, hq', hqe⟩

/-- Inversion of a middleware call that reached a decision: the count
succeeded and determined the decision, and the new window is the evicted
window plus the one appended record. -/
theorem step_some_inv (method : MatchMethod) (limit window : Int)
    (datas : List RequestState) (fields : Snapshot) (now : Int)
    (st : List RequestState) (d : Bool)
    (h : step method limit window datas fields now = (st, some d)) :
    ∃ cnt, countMatches method fields (removeOlds datas now window) = .ok cnt
      ∧ d = decide ((cnt : Int) ≤ limit)
      ∧ st = removeOlds datas now window ++ [⟨fields, now⟩] := by
  simp only [step] at h
  split at h
  · exact absurd (congrArg Prod.snd h) (by simp)
  · next cnt heq =>
    refine ⟨cnt, heq, ?_, ?_⟩
    · have := congrArg Prod.snd h
      simp only at this
      exact (Option.some.inj this).symm
    · exact (congrArg Prod.fst h).symm

/-- If two incoming snapshots are permutations of each other and the match
against a stored snapshot succeeds for both, the two answers agree. -/
theorem matchFn_ok_eq_of_perm (method : MatchMethod) (b1 b2 a : Snapshot)
    (r1 r2 : Bool) (hp : b1.Perm b2)
    (h1 : matchFn method b1 a = .ok r1) (h2 : matchFn method b2 a = .ok r2) :
    r1 = r2 := by
  have key : (r1 = true) ↔ (r2 = true) := by
    cases method with
    | and =>
      simp only [matchFn] at h1 h2
      constructor
      · intro hr
        subst hr
        have hall := (andMatch_ok_true_iff b1 a).mp h1
        have h2' : andMatch b2 a = .ok true := by
          rw [andMatch_ok_true_iff]
          intro p hm
          exact hall p (hp.mem_iff.mpr hm)
        rw [h2] at h2'
        exact Except.ok.inj h2'
      · intro hr
        subst hr
        have hall := (andMatch_ok_true_iff b2 a).mp h2
        have h1' : andMatch b1 a = .ok true := by
          rw [andMatch_ok_true_iff]
          intro p hm
          exact hall p (hp.mem_iff.mp hm)
        rw [h1] at h1'
        exact Except.ok.inj h1'
    | or =>
      simp only [matchFn] at h1 h2
      rw [orMatch_ok_iff b1 a r1 h1, orMatch_ok_iff b2 a r2 h2]
      constructor
      · rintro ⟨q, hq, hqe⟩
        exact ⟨q, hp.mem_iff.mp hq, hqe⟩
      · rintro ⟨q, hq, hqe⟩
        exact ⟨q, hp.mem_iff.mpr hq, hqe⟩
  cases r1 <;> cases r2 <;> simp_all

/-- If two incoming snapshots are permutations of each other and the whole
counting loop succeeds for both, the two counts agree. -/
theorem countMatches_ok_eq_of_perm (method : MatchMethod) (b1 b2 : Snapshot)
    (hp : b1.Perm b2) :
    ∀ (l : List RequestState) (n1 n2 : Nat),
      countMatches method b1 l = .ok n1 → countMatches method b2 l = .ok n2 →
      n1 = n2 := by
  intro l
  induction l with
  | nil =>
    intro n1 n2 h1 h2
    simp only [countMatches] at h1 h2
    rw [← Except.ok.inj h1, ← Except.ok.inj h2]
  | cons r rest ih =>
    intro n1 n2 h1 h2
    simp only [countMatches] at h1 h2
    split at h1
    · exact absurd h1 (by simp)
    · next bb1 hm1 =>
      split at h1
      · exact absurd h1 (by simp)
      · next m1 hc1 =>
        split at h2
        · exact absurd h2 (by simp)
        · next bb2 hm2 =>
          split at h2
          · exact absurd h2 (by simp)
          · next m2 hc2 =>
            have hbb : bb1 = bb2 :=
              matchFn_ok_eq_of_perm method b1 b2 r.fields bb1 bb2 hp hm1 hm2
            have hmm : m1 = m2 := ih m1 m2 hc1 hc2
            rw [← Except.ok.inj h1, ← Except.ok.inj h2, hbb, hmm]

/-- With an empty incoming snapshot, `_and` matches every stored record, so
the count is the full (evicted) window length. -/
theorem countMatches_and_nil :
    ∀ (l : List RequestState), countMatches .and [] l = .ok l.length := by
  intro l
  induction l with
  | nil => rfl
  | cons r rest ih =>
    simp [countMatches, matchFn, andMatch, ih]

/-- With an empty incoming snapshot, `_or` matches no stored record. -/
theorem countMatches_or_nil :
    ∀ (l : List RequestState), countMatches .or [] l = .ok 0 := by
  intro l
  induction l with
  | nil => rfl
  | cons r rest ih =>
    simp [countMatches, matchFn, orMatch, ih]

/-- Invariant preservation for a run of serialized middleware calls: if the
window is sorted by timestamp and every stored timestamp is at most every
upcoming call time, and the call times are non-decreasing, then the window
stays sorted throughout the run. -/
theorem runSeq_sorted_aux (method : MatchMethod) (limit window : Int) :
    ∀ (reqs : List (Snapshot × Int)) (st : List RequestState),
      st.Pairwise (fun a b => a.timestamp ≤ b.timestamp) →
      (∀ r ∈ st, ∀ q ∈ reqs, r.timestamp ≤ q.2) →
      (reqs.map Prod.snd).Pairwise (· ≤ ·) →
      ((runSeq method limit window st reqs).1).Pairwise
        (fun a b => a.timestamp ≤ b.timestamp) := by
  intro reqs
  induction reqs with
  | nil =>
    intro st hst _ _
    exact hst
  | cons q rest ih =>
    intro st hst hle htimes
    obtain ⟨f, t⟩ := q
    rw [List.map_cons, List.pairwise_cons] at htimes
    have hsub := removeOlds_sublist st t window
    have hst1 := List.Pairwise.sublist hsub hst
    have hmem1 : ∀ r ∈ removeOlds st t window, r ∈ st := fun r hr => hsub.subset hr
    simp only [runSeq]
    cases hc : countMatches method f (removeOlds st t window) with
    | error e =>
      simp only [step, hc]
      apply ih
      · exact hst1
      · intro r hr q' hq'
        exact hle r (hmem1 r hr) q' (List.mem_cons_of_mem _ hq')
      · exact htimes.2
    | ok cnt =>
      simp only [step, hc]
      apply ih
      · rw [List.pairwise_append]
        refine ⟨hst1, List.pairwise_singleton _ _, ?_⟩
        intro a ha b hb
        rcases List.mem_singleton.mp hb with rfl
        exact hle a (hmem1 a ha) (f, t) (List.mem_cons_self _ _)
      · intro r hr q' hq'
        rcases List.mem_append.mp hr with hr1 | hr2
        · exact hle r (hmem1 r hr1) q' (List.mem_cons_of_mem _ hq')
        · rcases List.mem_singleton.mp hr2 with rfl
          exact htimes.1 q'.2 (List.mem_map.mpr ⟨q', hq', rfl⟩)
      · exact htimes.2

/-! ## Concrete inputs used by counterexamples and witnesses -/

/-- The shared snapshot of C1's failing run: a non-empty cookie dict. -/
def c1Snapshot : Snapshot := [("cookies", .m [("a", "1")])]

/-- Stored snapshot for C2: has one key more than the incoming one. -/
def c2Stored : Snapshot := [("ip", .s "x"), ("useragent", .s "y")]

/-- Incoming snapshot for C2. -/
def c2Incoming : Snapshot := [("ip", .s "x")]

/-- Stored snapshot for C3: same key as the incoming one, different value. -/
def c3Stored : Snapshot := [("ip", .s "y")]

/-- Incoming snapshot for C3. -/
def c3Incoming : Snapshot := [("ip", .s "x")]

/-- A small sorted window for the C4 witness. -/
def c4Window : List RequestState := [⟨[], 0⟩, ⟨[], 5⟩, ⟨[], 10⟩]

/-- Disabled rate-limit config with all optional fields absent. -/
def c7Disabled : RateLimitConfig := ⟨false, none, none, none, none, 429, none⟩

/-- Enabled rate-limit config with `window_time` absent. -/
def c7EnabledMissing : RateLimitConfig :=
  ⟨true, none, some 3, some (.list [.ip]), some .and, 429, none⟩

/-- Request context for C9: ip and user-agent present. -/
def c9Ctx : RequestCtx := ⟨"x", some "y", [], none⟩

/-- Stored window for C9: one record that only recorded an ip. -/
def c9Window : List RequestState := [⟨[("ip", .s "z")], 0⟩]

/-- Stored snapshot for the C10 witness. -/
def c10A : Snapshot := [("ip", .s "q")]

/-- Stored window for the C10 witness. -/
def c10D : List RequestState := [⟨[("ip", .s "q")], 0⟩]

/-! ## Claim theorems -/

/-- Claim C1 (code bug, evaluated at the failing input): with `method = OR`,
`limit = 1`, a live window of duration 10, and two requests at times 0 and 1
sharing the identical non-empty snapshot `{cookies: {a: 1}}`, the claim says
request 2 (k = 2 ≤ limit + 1) is admitted; the code instead raises
`TypeError` while matching (it hashes the incoming cookie dict in
`item not in seq_2`), so the second call ends in an exception (outcome
`none`) and appends no record. -/
theorem C1_code_bug_eval :
    runSeq .or 1 10 [] [(c1Snapshot, 0), (c1Snapshot, 1)]
      = ([⟨c1Snapshot, 0⟩], [some true, none]) := by
  decide

/-- Claim C2 counterexample: the claim says the AND matcher is true iff
every key of the stored snapshot A appears in the incoming snapshot B with
an equal value.  With `A = {ip: x, useragent: y}` stored and `B = {ip: x}`
incoming, that predicate (`specAnd`, modelled from the spec) is false, yet
the code's matcher `_and(_fields, _item.fields)` returns `True`: it only
iterates the keys of B. -/
theorem C2_counterexample :
    andMatch c2Incoming c2Stored = .ok true ∧ specAnd c2Stored c2Incoming = false :=
  ⟨rfl, rfl⟩

/-- Claim C2 (amended): the AND matcher returns true iff every key present
in the *incoming* snapshot B is also present in the *stored* snapshot A with
a `==`-equal value; keys of A absent from B are ignored, and a key of B
missing from A raises `KeyError` (when reached) instead of yielding false. -/
theorem C2_and_direction (b a : Snapshot) :
    andMatch b a = .ok true ↔
      ∀ p ∈ b, ∃ w, lookupKey p.1 a = some w ∧ Value.eqv p.2 w = true :=
  andMatch_ok_true_iff b a

/-- Claim C3 (code bug, evaluated at the failing input): with stored
snapshot `A = {ip: y}` and incoming snapshot `B = {ip: x}` (`x ≠ y`), the
claim (and spec, modelled as `specOr`) says the OR matcher returns false —
no key of A has an equal non-empty value in B; the code's
`_or(_fields, _item.fields)` returns `True`, because the incoming value
`"x"` is not among the keys of the stored dict, and `_map_seq` with
`ignore_empty=True` counts `item not in seq_2` as a match. -/
theorem C3_code_bug_eval :
    orMatch c3Incoming c3Stored = .ok true ∧ specOr c3Stored c3Incoming = false :=
  ⟨rfl, rfl⟩

/-- Claim C4 (confirmed): for a window with non-decreasing timestamps,
`_remove_olds` at time `now` with window duration `window` keeps exactly the
records with `now - timestamp ≤ window`, i.e. removes exactly those with
timestamp strictly before `now - window`, preserving the order of the rest
(a filter); records with timestamp equal to `now - window` are kept, and
with `window = 0` exactly the records with timestamp strictly before `now`
are removed. -/
theorem C4_eviction_filter (datas : List RequestState) (now window : Int)
    (hsorted : datas.Pairwise (fun a b => a.timestamp ≤ b.timestamp)) :
    removeOlds datas now window
      = datas.filter (fun r => decide (now - window ≤ r.timestamp)) := by
  rw [removeOlds_eq_filter_aux datas now window hsorted]
  apply List.filter_congr
  intro r _
  simp only [isExpired, ← decide_not]
  rw [decide_eq_decide]
  omega

/-- Claim C4 witness: the eviction theorem applied to a concrete sorted
window. -/
theorem C4_witness :
    removeOlds c4Window 10 5
      = c4Window.filter (fun r => decide ((10 : Int) - 5 ≤ r.timestamp)) :=
  C4_eviction_filter c4Window 10 5 (by decide)

/-- Claim C5 counterexample: the claim says *every* call with a valid
`MatchMethod` appends exactly one record, whatever the outcome.  But a call
whose matcher raises appends nothing: with `method = OR` (a valid method)
and the stored and incoming snapshots both `{cookies: {a: 1}}`, the match
raises `TypeError`, and the window after the call is exactly the evicted
window — not the evicted window with the new record appended. -/
theorem C5_counterexample :
    (step .or 1 10 [⟨c1Snapshot, 0⟩] c1Snapshot 1).1
        = removeOlds [⟨c1Snapshot, 0⟩] 1 10 ∧
    (step .or 1 10 [⟨c1Snapshot, 0⟩] c1Snapshot 1).1
        ≠ removeOlds [⟨c1Snapshot, 0⟩] 1 10 ++ [⟨c1Snapshot, 1⟩] := by
  decide

/-- Claim C5 (amended): whenever a middleware call with a valid MatchMethod
reaches an admit/deny decision, the new window is exactly the evicted
window with the single record `{fields, now}` appended — one append per
decided call, admit or deny alike, and no other addition, removal or
mutation; a call aborted by a matcher exception appends no record (the
preceding eviction still persists). -/
theorem C5_append_exactly_one (method : MatchMethod) (limit window : Int)
    (datas : List RequestState) (fields : Snapshot) (now : Int)
    (st : List RequestState) (d : Bool)
    (h : step method limit window datas fields now = (st, some d)) :
    st = removeOlds datas now window ++ [⟨fields, now⟩] := by
  obtain ⟨_, _, _, hst⟩ := step_some_inv method limit window datas fields now st d h
  exact hst

/-- Claim C5 witness: the frame theorem applied to a concrete call. -/
theorem C5_witness :
    ([⟨[], 5⟩] : List RequestState) = removeOlds [] 5 10 ++ [⟨[], 5⟩] :=
  C5_append_exactly_one .and 0 10 [] [] 5 [⟨[], 5⟩] true (by decide)

/-- Claim C7 (confirmed): when limiting is disabled the validator accepts
the config unchanged even with all four fields absent; when limiting is
enabled and any of `window_time`, `limit`, `match_fields`, `match_method`
is absent, validation fails with an assertion error instead of defaulting. -/
theorem C7_config_required_fields (phrase : Int → Option String)
    (c : RateLimitConfig) :
    (c.enable = false → verify_fields phrase c = .ok c) ∧
    (c.enable = true →
      (c.window_time = none ∨ c.limit = none ∨ c.match_fields = none ∨
        c.match_method = none) →
      ∃ msg, verify_fields phrase c = .error msg) := by
  constructor
  · intro he
    simp [verify_fields, he]
  · intro he hmiss
    cases hw : c.window_time with
    | none =>
      refine ⟨"`window_time` must be defined when enable is True", ?_⟩
      simp [verify_fields, he, hw]
    | some wt =>
      cases hl : c.limit with
      | none =>
        refine ⟨"`limit` must be defined when enable is True", ?_⟩
        simp [verify_fields, he, hw, hl]
      | some lim =>
        cases hf : c.match_fields with
        | none =>
          refine ⟨"`match_fields` must be defined when enable is True", ?_⟩
          simp [verify_fields, he, hw, hl, hf]
        | some mf =>
          cases hm : c.match_method with
          | none =>
            refine ⟨"`match_method` must be defined when enable is True", ?_⟩
            simp [verify_fields, he, hw, hl, hf, hm]
          | some mm =>
            rcases hmiss with h | h | h | h <;>
              simp_all

/-- Claim C7 witness: the validation theorem applied to a concrete disabled
config (accepted as-is) and a concrete enabled config missing
`window_time` (rejected). -/
theorem C7_witness :
    verify_fields (fun _ => none) c7Disabled = .ok c7Disabled ∧
    (∃ msg, verify_fields (fun _ => none) c7EnabledMissing = .error msg) :=
  ⟨(C7_config_required_fields (fun _ => none) c7Disabled).1 rfl,
   (C7_config_required_fields (fun _ => none) c7EnabledMissing).2 rfl (Or.inl rfl)⟩

/-- Claim C8 (confirmed): starting from the empty window, a sequence of
serialized middleware calls at non-decreasing times leaves the stored
timestamps non-decreasing in store order after every call — eviction keeps
a suffix and each append carries the current (largest) time. -/
theorem C8_timestamps_sorted (method : MatchMethod) (limit window : Int)
    (reqs : List (Snapshot × Int))
    (htimes : (reqs.map Prod.snd).Pairwise (· ≤ ·)) :
    ((runSeq method limit window [] reqs).1).Pairwise
      (fun a b => a.timestamp ≤ b.timestamp) :=
  runSeq_sorted_aux method limit window reqs [] List.Pairwise.nil
    (fun r hr => absurd hr (List.not_mem_nil r)) htimes

/-- Claim C8 witness: the ordering theorem applied to a concrete run. -/
theorem C8_witness :
    ((runSeq .and 0 10 [] [([], 0), ([], 1)]).1).Pairwise
      (fun a b => a.timestamp ≤ b.timestamp) :=
  C8_timestamps_sorted .and 0 10 [([], 0), ([], 1)] (by decide)

/-- Claim C9 counterexample: with stored record `{ip: z}`, a request with
ip `x` (≠ z) and user-agent `y`, `method = AND` and `limit = 0`, the field
order `[ip, useragent]` yields an admit decision (the ip comparison is
false, short-circuiting `all` before the missing `useragent` key is
touched), while the permuted order `[useragent, ip]` hits the missing
`useragent` key first and raises `KeyError` — no decision at all.  So
permuting the configured match fields does not leave the Decision
unchanged. -/
theorem C9_counterexample :
    (step .and 0 10 c9Window (extractFields [.ip, .useragent] c9Ctx) 1).2
        = some true ∧
    (step .and 0 10 c9Window (extractFields [.useragent, .ip] c9Ctx) 1).2
        = none :=
  ⟨rfl, rfl⟩

/-- Claim C9 (amended): permuting the configured (duplicate-free) match
fields leaves the admit/deny Decision unchanged *provided the match
evaluation completes without raising under both orders*; when one order
raises (e.g. a key of the extracted snapshot missing from a stored record
under AND), the other order may still return a decision. -/
theorem C9_perm_decision (method : MatchMethod) (limit window : Int)
    (datas : List RequestState) (req : RequestCtx)
    (fs1 fs2 : List MatchFields) (now : Int)
    (st1 st2 : List RequestState) (d1 d2 : Bool)
    (hnd : fs1.Nodup) (hperm : fs2.Perm fs1)
    (h1 : step method limit window datas (extractFields fs1 req) now
            = (st1, some d1))
    (h2 : step method limit window datas (extractFields fs2 req) now
            = (st2, some d2)) :
    d1 = d2 := by
  obtain ⟨cnt1, hc1, hd1, -⟩ :=
    step_some_inv method limit window datas (extractFields fs1 req) now st1 d1 h1
  obtain ⟨cnt2, hc2, hd2, -⟩ :=
    step_some_inv method limit window datas (extractFields fs2 req) now st2 d2 h2
  have hbp : (extractFields fs1 req).Perm (extractFields fs2 req) :=
    (hperm.filterMap (fun f => (extractField f req).map (fun v => (f.value, v)))).symm
  have hcnt : cnt1 = cnt2 :=
    countMatches_ok_eq_of_perm method (extractFields fs1 req)
      (extractFields fs2 req) hbp (removeOlds datas now window) cnt1 cnt2 hc1 hc2
  rw [hd1, hd2, hcnt]

/-- Claim C9 witness: the amended theorem applied to a concrete error-free
pair of calls. -/
theorem C9_witness : true = true :=
  C9_perm_decision .and 0 10 [] c9Ctx [.ip] [.ip] 0
    [⟨[("ip", .s "x")], 0⟩] [⟨[("ip", .s "x")], 0⟩] true true
    (by decide) (List.Perm.refl _) (by decide) (by decide)

/-- Claim C10 (confirmed, for a non-negative limit): an empty incoming
snapshot (every configured field extracted to `None` and filtered out)
makes the AND matcher return true against every stored snapshot — so under
AND the request is counted against all records of the evicted window and
denied exactly when that window holds more than `limit` records — while the
OR matcher returns false against every stored snapshot, so under OR the
request is always admitted. -/
theorem C10_empty_snapshot (a : Snapshot) (limit window : Int)
    (datas : List RequestState) (now : Int) (hlim : 0 ≤ limit) :
    andMatch [] a = .ok true ∧ orMatch [] a = .ok false ∧
    step .and limit window datas [] now
      = (removeOlds datas now window ++ [⟨[], now⟩],
         some (decide (((removeOlds datas now window).length : Int) ≤ limit))) ∧
    step .or limit window datas [] now
      = (removeOlds datas now window ++ [⟨[], now⟩], some true) := by
  refine ⟨rfl, rfl, ?_, ?_⟩
  · simp [step, countMatches_and_nil]
  · simp [step, countMatches_or_nil, hlim]

/-- Claim C10 witness: the empty-snapshot theorem applied to a concrete
stored snapshot and window. -/
theorem C10_witness :
    andMatch [] c10A = .ok true ∧ orMatch [] c10A = .ok false ∧
    step .and 0 10 c10D [] 1
      = (removeOlds c10D 1 10 ++ [⟨[], 1⟩],
         some (decide (((removeOlds c10D 1 10).length : Int) ≤ 0))) ∧
    step .or 0 10 c10D [] 1
      = (removeOlds c10D 1 10 ++ [⟨[], 1⟩], some true) :=
  C10_empty_snapshot c10A 0 10 c10D 1 (by decide)
